import Mathlib

/-!
Verification of the FlowWAF anomaly-scoring engine and indicator matcher.

This file gives a shallow embedding, in Lean 4, of the core analytics code of
the FlowWAF repository:

* `backend/analytics/storage.py` — baseline load/save against an S3-like blob
  store (`get_baseline`, `put_baseline`);
* `backend/analytics/ewma.py` — EWMA baseline model and the anomaly detector
  (`ewma`, `ewma_std`, `zscore`, `get_baseline_key`, `load_or_train_baseline`,
  `detect_anomalies`);
* `backend/analytics/ioc.py` — the indicator-of-compromise matcher
  (`IOCMatcher` and its `match` method).

Modelling conventions:
* Python floats are abstracted as real numbers (`ℝ`); `math.sqrt` is
  `Real.sqrt`.
* The S3 blob store is a pure map from (bucket, key) to a stored response;
  `get_object` outcomes are `noSuchKey` (boto3 NoSuchKey ClientError), any
  other `ClientError`, or a blob.  A blob's bytes go through
  `.read().decode('utf-8')` and then `json.loads`, so they decode to a
  baseline record, or raise `json.JSONDecodeError` (valid UTF-8 that is not
  valid JSON — caught), or raise `UnicodeDecodeError` (bytes that are not
  valid UTF-8 — NOT caught by any except clause of `get_baseline`, hence an
  uncaught exception).  Raising an uncaught exception is modelled with
  `Except`.  `put_object` is modelled as an unconditional store update (its
  failure path is not needed by any claim verified here).
* A decoded baseline record is modelled as a JSON object carrying `mean` and
  `std` floats; such an object is a non-empty dict, hence truthy in the
  `if baseline_data:` check of `load_or_train_baseline`.  The optional
  `last_updated` timestamp string is never read back and is omitted.
* pandas `Series.ewm(alpha=alpha, adjust=False)` is embedded by its
  documented semantics: the mean follows the recurrence
  `y_0 = x_0, y_t = (1-alpha)*y_{t-1} + alpha*x_t`, and `.var()` (with its
  default bias correction) is the debiased exponentially weighted variance
  `(E_w[x^2] - E_w[x]^2) / (1 - Σ w_i^2)` over the normalised weights, whose
  running state follows the recurrences embedded below.  The detector only
  evaluates these on series of length ≥ 2, where the debias denominator is
  nonzero for `alpha ∈ (0,1)`.
-/

namespace FlowWAF

/-! ## Storage model (`backend/analytics/storage.py`) -/

/-- A decoded baseline blob: the JSON object `{"mean": .., "std": ..}`
persisted by `put_baseline` and read back by `get_baseline`. -/
structure BaselineRecord where
  mean : ℝ
  std : ℝ

/-- How the bytes of a stored blob behave under the decode pipeline of
`storage.get_baseline`, `response['Body'].read().decode('utf-8')` followed by
`json.loads`: they are not valid UTF-8 (`.decode` raises
`UnicodeDecodeError`), or they are valid UTF-8 that is not valid JSON
(`json.loads` raises `json.JSONDecodeError`), or they decode to a baseline
record. -/
inductive BlobBytes
  | invalidUtf8
  | invalidJson
  | record (r : BaselineRecord)

/-- What one `get_object` call on the blob store yields for a given
(bucket, key): the NoSuchKey client error, some other client error, or a
blob with the given byte contents. -/
inductive GetResponse
  | noSuchKey
  | otherClientError
  | blob (bytes : BlobBytes)

/-- The S3 blob store, as a pure map from bucket and key to the response
`get_object` would produce. -/
def Store : Type := String → String → GetResponse

/-- The possible outcomes of `storage.get_baseline`, kept separate so that
the "not found" and "corrupt data" cold-start cases remain distinguishable
(they log different messages in the source).  `decodeError` is the
UnicodeDecodeError path: the `try` block catches only `ClientError` and
`json.JSONDecodeError`, so a UTF-8 decode failure is an uncaught exception,
like `storeError`. -/
inductive LoadOutcome
  | found (r : BaselineRecord)
  | notFound
  | corruptData
  | decodeError
  | storeError

/-- Which branch of `storage.get_baseline` runs for a given store state:
successful decode returns the record, NoSuchKey is caught and logged as
"not found", a JSON parse failure is caught and logged as a decode error,
bytes that are not valid UTF-8 raise an uncaught `UnicodeDecodeError`, and
any other `ClientError` is re-raised. -/
def get_baseline_outcome (store : Store) (bucket_name : String) (s3_key : String) :
    LoadOutcome :=
  match store bucket_name s3_key with
  | .blob (.record r) => .found r
  | .blob .invalidJson => .corruptData
  | .blob .invalidUtf8 => .decodeError
  | .noSuchKey => .notFound
  | .otherClientError => .storeError

/-- The value `storage.get_baseline` delivers to its caller: the decoded
record, `None` (for both the not-found and the corrupt-data branches), or a
propagated exception. -/
def LoadOutcome.toResult : LoadOutcome → Except Unit (Option BaselineRecord)
  | .found r => .ok (some r)
  | .notFound => .ok none
  | .corruptData => .ok none
  | .decodeError => .error ()
  | .storeError => .error ()

/-- `storage.get_baseline(s3_client, bucket_name, s3_key)`. -/
def get_baseline (store : Store) (bucket_name : String) (s3_key : String) :
    Except Unit (Option BaselineRecord) :=
  (get_baseline_outcome store bucket_name s3_key).toResult

/-- `storage.put_baseline(s3_client, bucket_name, s3_key, baseline_data)`:
an unconditional overwrite of the stored blob. -/
def put_baseline (store : Store) (bucket_name : String) (s3_key : String)
    (baseline_data : BaselineRecord) : Store :=
  fun b k =>
    if b = bucket_name ∧ k = s3_key then .blob (.record baseline_data) else store b k

/-! ## EWMA baseline model (`backend/analytics/ewma.py`) -/

/-- `ewma.get_baseline_key(metric, key, subkey)`:
`f"baselines/{metric}/{key}/{subkey}.json"`.  Note that `key` and `subkey`
are interpolated verbatim (no hashing). -/
def get_baseline_key (metric : String) (key : String) (subkey : String) : String :=
  "baselines/" ++ metric ++ "/" ++ key ++ "/" ++ subkey ++ ".json"

/-- Last element of `series.ewm(alpha=alpha, adjust=False).mean()`, i.e. the
result of `ewma.ewma(series, alpha)` at the newest point: the recurrence
`y_0 = x_0, y_t = (1-alpha)*y_{t-1} + alpha*x_t`.  (The `[]` case is never
used: every caller guards on a non-empty series.) -/
noncomputable def ewma_last (alpha : ℝ) : List ℝ → ℝ
  | [] => 0
  | x :: xs => xs.foldl (fun m v => (1 - alpha) * m + alpha * v) x

/-- Running state of pandas' `ewm(adjust=False)` moment computation over one
more sample: the weighted mean, the weighted mean of squares, and the sum of
squared normalised weights (used by the default bias correction of
`.var()`). -/
noncomputable def ewm_step (alpha : ℝ) (st : ℝ × ℝ × ℝ) (v : ℝ) : ℝ × ℝ × ℝ :=
  ((1 - alpha) * st.1 + alpha * v,
   (1 - alpha) * st.2.1 + alpha * v ^ 2,
   (1 - alpha) ^ 2 * st.2.2 + alpha ^ 2)

/-- Last element of `series.ewm(alpha=alpha, adjust=False).var()` with the
pandas default bias correction: `(E_w[x²] - E_w[x]²) / (1 - Σ wᵢ²)`. -/
noncomputable def ewm_var_last (alpha : ℝ) : List ℝ → ℝ
  | [] => 0
  | x :: xs =>
      let st := xs.foldl (ewm_step alpha) (x, x ^ 2, 1)
      (st.2.1 - st.1 ^ 2) / (1 - st.2.2)

/-- `ewma.ewma_std(series, alpha)` at the newest point:
`np.sqrt(series.ewm(alpha=alpha, adjust=False).var())`. -/
noncomputable def ewma_std_last (alpha : ℝ) (xs : List ℝ) : ℝ :=
  Real.sqrt (ewm_var_last alpha xs)

/-- `ewma.zscore(series, baseline_mean, baseline_std)`: elementwise
`(x - mean) / std`, except that a zero `baseline_std` short-circuits to a
series of zeros (`pd.Series(0.0, index=series.index)`). -/
noncomputable def zscore (series : List ℝ) (baseline_mean : ℝ) (baseline_std : ℝ) :
    List ℝ :=
  if baseline_std = 0 then series.map (fun _ => 0)
  else series.map (fun x => (x - baseline_mean) / baseline_std)

/-- `ewma.py` line 200: `updated_mean = (1 - alpha) * baseline_mean + alpha *
current_value`. -/
noncomputable def updated_mean (alpha : ℝ) (baseline_mean : ℝ) (current_value : ℝ) : ℝ :=
  (1 - alpha) * baseline_mean + alpha * current_value

/-- `ewma.py` line 201: `updated_std = math.sqrt((1 - alpha) *
(baseline_std**2) + alpha * ((current_value - updated_mean)**2))`; the squared
deviation is taken against the already-updated mean. -/
noncomputable def updated_std (alpha : ℝ) (baseline_mean : ℝ) (baseline_std : ℝ)
    (current_value : ℝ) : ℝ :=
  Real.sqrt ((1 - alpha) * baseline_std ^ 2 +
    alpha * (current_value - updated_mean alpha baseline_mean current_value) ^ 2)

/-- `ewma.py` lines 204-205: `if updated_std < 1e-6: updated_std = 1e-6`. -/
noncomputable def clamped_std (s : ℝ) : ℝ :=
  if s < 1e-6 then 1e-6 else s

/-- `ewma.load_or_train_baseline`: read the baseline stored under
`get_baseline_key metric key subkey`; if present (a decoded record is a
non-empty dict, hence truthy) return its mean/std unchanged.  Otherwise train
one: with fewer than 2 historical points the mean is the last value (or `0.0`
for an empty history) and the std is `0.0`; with at least 2 points the mean
and std are the final values of `ewma` and `ewma_std` over the history.  The
newly trained baseline is saved before returning.  The `train_days` argument
is accepted but never used, as in the source.  A store error on the load
propagates. -/
noncomputable def load_or_train_baseline (store : Store) (bucket_name : String)
    (metric : String) (key : String) (subkey : String) (historical_data : List ℝ)
    (alpha : ℝ) (train_days : ℕ) : Except Unit ((ℝ × ℝ) × Store) :=
  let baseline_s3_key := get_baseline_key metric key subkey
  match get_baseline store bucket_name baseline_s3_key with
  | .error e => .error e
  | .ok (some r) => .ok ((r.mean, r.std), store)
  | .ok none =>
      let p : ℝ × ℝ :=
        if historical_data.length < 2 then
          ((historical_data.getLast?).getD 0, 0)
        else
          (ewma_last alpha historical_data, ewma_std_last alpha historical_data)
      .ok (p, put_baseline store bucket_name baseline_s3_key ⟨p.1, p.2⟩)

/-- Projection of a `load_or_train_baseline` result onto the returned
`(mean, std)` pair, discarding the store state. -/
def result_pair (e : Except Unit ((ℝ × ℝ) × Store)) : Option (ℝ × ℝ) :=
  match e with
  | .ok p => some p.1
  | .error _ => none

/-- Modelled from the spec: the bootstrap the specification describes —
"apply the recurrences sequentially over the full history starting from
`mean = history[0], std = 0`" — one combined mean/std recurrence step. -/
noncomputable def bootstrap_spec_step (alpha : ℝ) (st : ℝ × ℝ) (v : ℝ) : ℝ × ℝ :=
  let m := (1 - alpha) * st.1 + alpha * v
  (m, Real.sqrt ((1 - alpha) * st.2 ^ 2 + alpha * (v - m) ^ 2))

/-- Modelled from the spec: bootstrap over a full history, starting from
`mean = history[0], std = 0` and returning the final `(mean, std)`. -/
noncomputable def bootstrap_spec (alpha : ℝ) : List ℝ → ℝ × ℝ
  | [] => (0, 0)
  | x :: xs => xs.foldl (bootstrap_spec_step alpha) (x, 0)

/-- A necessary condition for the storage-key layout claimed by the spec,
`baselines/<metric>/<sha1(key)>/<sha1(subkey)>.json`: the two middle path
segments are hex SHA-1 digests, hence of fixed length 40. -/
def sha1_layout (metric : String) (s : String) : Prop :=
  ∃ h1 h2 : String, h1.length = 40 ∧ h2.length = 40 ∧
    s = "baselines/" ++ metric ++ "/" ++ h1 ++ "/" ++ h2 ++ ".json"

/-! ## Anomaly detector (`ewma.detect_anomalies`) -/

/-- One input row of `detect_anomalies`: `{'minute': .., 'key': .., 'subkey':
.., 'value': .., 'metric': ..}`.  The `subkey` field may be missing
(`dp.get('subkey', 'N/A')`), hence an `Option`.  Minutes are timestamps,
modelled as naturals ordered as the source's sort key orders them. -/
structure DataPoint where
  metric : String
  key : String
  subkeyField : Option String
  minute : ℕ
  value : ℝ

/-- `dp.get('subkey', 'N/A')`. -/
def DataPoint.subkey (dp : DataPoint) : String :=
  dp.subkeyField.getD "N/A"

/-- The dict key `(metric, key, subkey)` used to group data points. -/
def DataPoint.group_key (dp : DataPoint) : String × String × String :=
  (dp.metric, dp.key, dp.subkey)

/-- The keys of `grouped_data` in iteration order: Python dicts iterate in
insertion order, i.e. in order of each key's first occurrence in
`data_points`. -/
def group_keys (data_points : List DataPoint) : List (String × String × String) :=
  data_points.foldl
    (fun acc dp => if dp.group_key ∈ acc then acc else acc ++ [dp.group_key]) []

/-- The list `grouped_data[gk]`: all data points with this group key, in
input order (they are appended one by one). -/
def group_of (data_points : List DataPoint) (gk : String × String × String) :
    List DataPoint :=
  data_points.filter (fun dp => decide (dp.group_key = gk))

/-- Stable insertion (by `minute`, ascending) used to model the stable
in-place `group.sort(key=lambda x: x['minute'])`. -/
def insert_by_minute (a : DataPoint) : List DataPoint → List DataPoint
  | [] => [a]
  | b :: bs => if a.minute ≤ b.minute then a :: b :: bs else b :: insert_by_minute a bs

/-- `group.sort(key=lambda x: x['minute'])`: Python's sort is stable, and a
head-into-sorted-tail insertion sort with ties resolved in favour of the
inserted (originally earlier) element is extensionally the same stable
sort. -/
def sort_by_minute : List DataPoint → List DataPoint
  | [] => []
  | a :: as => insert_by_minute a (sort_by_minute as)

/-- One detected anomaly, with the fields appended by `detect_anomalies`. -/
structure Anomaly where
  key : String
  subkey : String
  minute : ℕ
  value : ℝ
  score : ℝ
  baseline_mean : ℝ
  baseline_std : ℝ
  metric : String
  mode : String

/-- The `(metric, key, subkey)` identity of the group an anomaly was raised
for. -/
def Anomaly.group_key (a : Anomaly) : String × String × String :=
  (a.metric, a.key, a.subkey)

/-- The body of the `for (metric, key, subkey), group in grouped_data.items()`
loop of `detect_anomalies`: sort the group by minute, build the value series,
skip it if empty, load or train the baseline, apply the EWMA update to the
most recent value, clamp the std, compute the z-score, flag an anomaly iff
`abs(score) > sigma`, and unconditionally save the updated baseline.  Returns
the updated store and the anomaly appended for this group, if any; a store
error aborts (propagates). -/
noncomputable def process_group (alpha : ℝ) (sigma : ℝ) (baseline_bucket : String)
    (train_days : ℕ) (store : Store) (gk : String × String × String)
    (group : List DataPoint) : Except Unit (Store × Option Anomaly) :=
  let sorted := sort_by_minute group
  let values := sorted.map (fun dp => dp.value)
  if values.isEmpty then .ok (store, none)
  else
    match load_or_train_baseline store baseline_bucket gk.1 gk.2.1 gk.2.2 values
        alpha train_days with
    | .error e => .error e
    | .ok ((baseline_mean, baseline_std), store1) =>
        let current_value := (values.getLast?).getD 0
        let m := updated_mean alpha baseline_mean current_value
        let s := clamped_std (updated_std alpha baseline_mean baseline_std
          current_value)
        let score := (current_value - m) / s
        let anomaly? : Option Anomaly :=
          if sigma < |score| then
            some ⟨gk.2.1, gk.2.2, ((sorted.getLast?).map (fun dp => dp.minute)).getD 0,
              current_value, score, m, s, gk.1, if 0 < score then "high" else "low"⟩
          else none
        let store2 := put_baseline store1 baseline_bucket
          (get_baseline_key gk.1 gk.2.1 gk.2.2) ⟨m, s⟩
        .ok (store2, anomaly?)

/-- The grouped loop of `detect_anomalies`: fold `process_group` over the
groups in dict-iteration order, threading the store and appending each raised
anomaly to the accumulator. -/
noncomputable def process_groups (alpha : ℝ) (sigma : ℝ) (baseline_bucket : String)
    (train_days : ℕ) (data_points : List DataPoint) :
    List (String × String × String) → Store → List Anomaly →
    Except Unit (Store × List Anomaly)
  | [], store, acc => .ok (store, acc)
  | gk :: gks, store, acc =>
      match process_group alpha sigma baseline_bucket train_days store gk
          (group_of data_points gk) with
      | .error e => .error e
      | .ok (store', anomaly?) =>
          process_groups alpha sigma baseline_bucket train_days data_points gks
            store' (match anomaly? with | some a => acc ++ [a] | none => acc)

/-- Stable insertion (by `abs(score)`, descending) modelling the stable
`anomalies.sort(key=lambda x: abs(x['score']), reverse=True)`: the inserted
(originally earlier) element stays in front of elements it ties with. -/
noncomputable def insert_desc (a : Anomaly) : List Anomaly → List Anomaly
  | [] => [a]
  | b :: bs => if |b.score| ≤ |a.score| then a :: b :: bs else b :: insert_desc a bs

/-- The stable descending sort on `abs(score)` performed at the end of
`detect_anomalies`. -/
noncomputable def sort_desc : List Anomaly → List Anomaly
  | [] => []
  | a :: as => insert_desc a (sort_desc as)

/-- `ewma.detect_anomalies(data_points, s3_client, baseline_bucket, alpha,
sigma, min_count, topk, train_days)`.  `min_count` is accepted but unused, as
in the source.  The result is the anomaly list (the final store state is
external side effect); a store error on any group's baseline load aborts the
whole batch. -/
noncomputable def detect_anomalies (data_points : List DataPoint) (store : Store)
    (baseline_bucket : String) (alpha : ℝ) (sigma : ℝ) (min_count : ℕ) (topk : ℕ)
    (train_days : ℕ) : Except Unit (List Anomaly) :=
  if data_points.isEmpty then .ok []
  else
    match process_groups alpha sigma baseline_bucket train_days data_points
        (group_keys data_points) store [] with
    | .error e => .error e
    | .ok (_, anomalies) => .ok ((sort_desc anomalies).take topk)

/-- The anomalies collected across all groups, before the final sort and
truncation (the contents of the `anomalies` list at line 231 of
`ewma.py`). -/
noncomputable def collected_anomalies (data_points : List DataPoint) (store : Store)
    (baseline_bucket : String) (alpha : ℝ) (sigma : ℝ) (train_days : ℕ) :
    Except Unit (List Anomaly) :=
  match process_groups alpha sigma baseline_bucket train_days data_points
      (group_keys data_points) store [] with
  | .error e => .error e
  | .ok (_, anomalies) => .ok anomalies

/-! ### The ordering claimed by the spec for the final ranking -/

/-- Lexicographic order on `(metric, key, subkey)` triples (strings compared
lexicographically by character). -/
def lex_lt (x y : String × String × String) : Prop :=
  x.1.data < y.1.data ∨ (x.1 = y.1 ∧
    (x.2.1.data < y.2.1.data ∨ (x.2.1 = y.2.1 ∧ x.2.2.data < y.2.2.data)))

/-- Modelled from the spec: `a` is ranked before `b` under "sort by
`abs(score)` descending, ties broken by lexicographic `(metric, key,
subkey)`". -/
def spec_before (a b : Anomaly) : Prop :=
  |b.score| < |a.score| ∨
    (|a.score| = |b.score| ∧ (lex_lt a.group_key b.group_key ∨ a.group_key = b.group_key))

open Classical in
/-- Modelled from the spec: insertion under `spec_before`. -/
noncomputable def spec_insert (a : Anomaly) : List Anomaly → List Anomaly
  | [] => [a]
  | b :: bs =>
      if spec_before a b then a :: b :: bs else b :: spec_insert a bs

/-- Modelled from the spec: the ranking the spec claims — sorted by
`abs(score)` descending with lexicographic `(metric, key, subkey)`
tie-breaking. -/
noncomputable def spec_sort : List Anomaly → List Anomaly
  | [] => []
  | a :: as => spec_insert a (spec_sort as)

/-- Formalisation of claim C1: on every batch, `detect_anomalies` returns the
collected anomalies sorted by `abs(score)` descending with lexicographic
`(metric, key, subkey)` tie-breaking, truncated to `topk`. -/
def claim_C1 (data_points : List DataPoint) (store : Store) (baseline_bucket : String)
    (alpha : ℝ) (sigma : ℝ) (min_count : ℕ) (topk : ℕ) (train_days : ℕ) : Prop :=
  ∀ l, detect_anomalies data_points store baseline_bucket alpha sigma min_count topk
      train_days = .ok l →
    ∃ anomalies, collected_anomalies data_points store baseline_bucket alpha sigma
        train_days = .ok anomalies ∧ l = (spec_sort anomalies).take topk

/-! ## Indicator matcher (`backend/analytics/ioc.py`) -/

/-- A compiled pattern, `re.compile(p, re.IGNORECASE)`: the pattern text
together with the behaviour of `pattern.search` (which scans for a match
anywhere in the subject, case-insensitively — those properties live in the
regex engine and are abstracted here into the `search` function). -/
structure CompiledRegex where
  pattern : String
  search : String → Bool

/-- An `ipaddress.ip_network` value from the `cidrs` configuration list: the
network address, the prefix length, and the canonical display string used in
`f"CIDR:{net}"` (for the valid, already-canonical CIDR strings this
repository configures, `str(net)` is the configured string itself). -/
structure IPNetwork where
  address : ℕ
  prefix_len : ℕ
  display : String

/-- `addr in net` for an IPv4 address and network: the top `prefix_len` bits
agree. -/
def ip_in_network (addr : ℕ) (net : IPNetwork) : Bool :=
  addr / 2 ^ (32 - net.prefix_len) = net.address / 2 ^ (32 - net.prefix_len)

/-- One dotted-quad octet accepted by `ipaddress.ip_address`: 1–3 ASCII
digits, no leading zero, value at most 255. -/
def parse_octet (cs : List Char) : Option ℕ :=
  if cs.length = 0 ∨ 3 < cs.length then none
  else if ¬ cs.all Char.isDigit then none
  else if 1 < cs.length ∧ cs.headI = '0' then none
  else
    let n := cs.foldl (fun acc c => acc * 10 + (c.toNat - 48)) 0
    if n ≤ 255 then some n else none

/-- Split a character list at `'.'` separators. -/
def split_dots : List Char → List (List Char)
  | [] => [[]]
  | c :: cs =>
      let rest := split_dots cs
      if c = '.' then [] :: rest
      else match rest with
        | [] => [[c]]
        | seg :: segs => (c :: seg) :: segs

/-- `ipaddress.ip_address(ip_str)` restricted to IPv4 dotted-quad text, the
address family used by every indicator and test in this repository: four
octets separated by dots, yielding the 32-bit address value; anything else is
a parse failure (`ValueError`).  (IPv6 textual addresses are outside the
model.) -/
def ip_address? (s : String) : Option ℕ :=
  match split_dots s.data with
  | [a, b, c, d] =>
      match parse_octet a, parse_octet b, parse_octet c, parse_octet d with
      | some a', some b', some c', some d' =>
          some (((a' * 256 + b') * 256 + c') * 256 + d')
      | _, _, _, _ => none
  | _ => none

/-- Python truthiness test `if not x:` for an optional string: `None` and the
empty string are falsy. -/
def falsy_str (x : Option String) : Bool :=
  match x with
  | none => true
  | some s => s = ""

/-- The IOC rule set loaded by `IOCMatcher.__init__`: CIDR networks, ASNs
(stored but never matched), country codes, exact user-agent and URI strings,
and the two compiled regex lists.  Python-set membership for the string sets
is modelled by list membership. -/
structure IOCMatcher where
  cidrs : List IPNetwork
  asns : List String
  countries : List String
  exact_ua : List String
  exact_uri : List String
  regex_ua : List CompiledRegex
  regex_uri : List CompiledRegex

/-- The `for net in self.cidrs` loop of `_match_ip_cidr`: the first network
containing the address yields `f"CIDR:{net}"`. -/
def cidr_loop (addr : ℕ) : List IPNetwork → Option String
  | [] => none
  | net :: nets =>
      if ip_in_network addr net then some ("CIDR:" ++ net.display)
      else cidr_loop addr nets

/-- `IOCMatcher._match_ip_cidr`: falsy input and unparseable addresses
(`ValueError`, caught) both yield no match; otherwise the first containing
network is reported. -/
def IOCMatcher.match_ip_cidr (m : IOCMatcher) (ip_str : Option String) :
    Option String :=
  if falsy_str ip_str then none
  else
    match ip_str with
    | none => none
    | some s =>
        match ip_address? s with
        | none => none
        | some addr => cidr_loop addr m.cidrs

/-- `IOCMatcher._match_country`. -/
def IOCMatcher.match_country (m : IOCMatcher) (country_code : Option String) :
    Option String :=
  if falsy_str country_code then none
  else
    match country_code with
    | none => none
    | some c => if c ∈ m.countries then some ("Country:" ++ c) else none

/-- `IOCMatcher._match_ua_exact`. -/
def IOCMatcher.match_ua_exact (m : IOCMatcher) (user_agent : Option String) :
    Option String :=
  if falsy_str user_agent then none
  else
    match user_agent with
    | none => none
    | some ua => if ua ∈ m.exact_ua then some ("UA_Exact:" ++ ua) else none

/-- `IOCMatcher._match_uri_exact`. -/
def IOCMatcher.match_uri_exact (m : IOCMatcher) (uri : Option String) :
    Option String :=
  if falsy_str uri then none
  else
    match uri with
    | none => none
    | some u => if u ∈ m.exact_uri then some ("URI_Exact:" ++ u) else none

/-- The `for pattern in ...` loop shared by `_match_ua_regex` and
`_match_uri_regex`: the first pattern whose `search` succeeds returns its
tagged descriptor (the loop body `return`s immediately on a match). -/
def regex_loop (tag : String) (s : String) : List CompiledRegex → Option String
  | [] => none
  | p :: ps => if p.search s then some (tag ++ p.pattern) else regex_loop tag s ps

/-- `IOCMatcher._match_ua_regex`. -/
def IOCMatcher.match_ua_regex (m : IOCMatcher) (user_agent : Option String) :
    Option String :=
  if falsy_str user_agent then none
  else
    match user_agent with
    | none => none
    | some ua => regex_loop "UA_Regex:" ua m.regex_ua

/-- `IOCMatcher._match_uri_regex`. -/
def IOCMatcher.match_uri_regex (m : IOCMatcher) (uri : Option String) :
    Option String :=
  if falsy_str uri then none
  else
    match uri with
    | none => none
    | some u => regex_loop "URI_Regex:" u m.regex_uri

/-- A log record as consumed by `IOCMatcher.match`: the four `record.get(..)`
fields, each possibly missing. -/
structure LogRecord where
  client_ip : Option String
  country : Option String
  user_agent : Option String
  uri : Option String

/-- The result dict `{"matched": bool(matched_rules), "rules":
matched_rules}`. -/
structure MatchResult where
  matched : Bool
  rules : List String

/-- `if x: matched_rules.append(x)` for one category's optional match. -/
def append_if (acc : List String) (x : Option String) : List String :=
  match x with
  | some s => acc ++ [s]
  | none => acc

/-- `IOCMatcher.match(record)` (named `match_record` here because `match` is
a Lean keyword): evaluate every category in the fixed source order — CIDR,
country, exact UA, regex UA, exact URI, regex URI — appending each category's
match, then report `matched = bool(matched_rules)`. -/
def IOCMatcher.match_record (m : IOCMatcher) (record : LogRecord) : MatchResult :=
  let rules :=
    append_if
      (append_if
        (append_if
          (append_if
            (append_if
              (append_if [] (m.match_ip_cidr record.client_ip))
              (m.match_country record.country))
            (m.match_ua_exact record.user_agent))
          (m.match_ua_regex record.user_agent))
        (m.match_uri_exact record.uri))
      (m.match_uri_regex record.uri)
  ⟨!rules.isEmpty, rules⟩

/-- `[x]` when the category matched, `[]` otherwise. -/
def opt_list (x : Option String) : List String :=
  match x with
  | some s => [s]
  | none => []

/-- Modelled from the spec: "each matching pattern contributes a descriptor
containing the pattern text" — ALL matching patterns of a regex category, in
configuration order. -/
def regex_all (tag : String) (ps : List CompiledRegex) (x : Option String) :
    List String :=
  match x with
  | none => []
  | some s => if s = "" then [] else (ps.filter (fun p => p.search s)).map
      (fun p => tag ++ p.pattern)

/-- Formalisation of claim C3: the rules list contains one descriptor per
matching UA regex pattern and one per matching URI regex pattern (not just
the first), in the fixed category order. -/
def claim_C3 (m : IOCMatcher) (record : LogRecord) : Prop :=
  (m.match_record record).rules =
    opt_list (m.match_ip_cidr record.client_ip) ++
    opt_list (m.match_country record.country) ++
    opt_list (m.match_ua_exact record.user_agent) ++
    regex_all "UA_Regex:" m.regex_ua record.user_agent ++
    opt_list (m.match_uri_exact record.uri) ++
    regex_all "URI_Regex:" m.regex_uri record.uri

/-! ## Concrete scenarios used for witnesses and counterexamples -/

/-- An empty blob store: every key is missing. -/
noncomputable def s1_store : Store := fun _ _ => .noSuchKey

/-- Scenario 1, first data point: group `("m", "b", "s")`, single observation
of value 5. -/
noncomputable def s1_dpB : DataPoint := ⟨"m", "b", some "s", 0, 5⟩

/-- Scenario 1, second data point: group `("m", "a", "s")`, single
observation of value 5. -/
noncomputable def s1_dpA : DataPoint := ⟨"m", "a", some "s", 0, 5⟩

/-- The anomaly scenario 1 raises for group `("m", "b", "s")` (cold start
from a single value: score 0, std clamped to the floor). -/
noncomputable def s1_anomB : Anomaly := ⟨"b", "s", 0, 5, 0, 5, 1e-6, "m", "low"⟩

/-- The anomaly scenario 1 raises for group `("m", "a", "s")`. -/
noncomputable def s1_anomA : Anomaly := ⟨"a", "s", 0, 5, 0, 5, 1e-6, "m", "low"⟩

/-- Scenario 2 blob store: baselines `mean = 0, std = 1` pre-stored for the
two tracked groups. -/
noncomputable def s2_store : Store := fun _ k =>
  if k = "baselines/m/k1/s.json" ∨ k = "baselines/m/k2/s.json" then
    .blob (.record ⟨0, 1⟩)
  else .noSuchKey

/-- Scenario 2, first data point: group `("m", "k1", "s")`, value 14. -/
noncomputable def s2_dp1 : DataPoint := ⟨"m", "k1", some "s", 0, 14⟩

/-- Scenario 2, second data point: group `("m", "k2", "s")`, value 2. -/
noncomputable def s2_dp2 : DataPoint := ⟨"m", "k2", some "s", 0, 2⟩

/-- Scenario 2, anomaly for group 1 (`alpha = 1/2`): updated mean 7, updated
std `sqrt((1/2)*1 + (1/2)*49) = 5`, score `7/5`. -/
noncomputable def s2_anom1 : Anomaly := ⟨"k1", "s", 0, 14, 7 / 5, 7, 5, "m", "high"⟩

/-- Scenario 2, anomaly for group 2 (`alpha = 1/2`): updated mean 1, updated
std `sqrt((1/2)*1 + (1/2)*1) = 1`, score 1. -/
noncomputable def s2_anom2 : Anomaly := ⟨"k2", "s", 0, 2, 1, 1, 1, "m", "high"⟩

/-- A matcher whose only rules are two user-agent regex patterns that match
every subject. -/
def cex_matcher : IOCMatcher :=
  ⟨[], [], [], [], [], [⟨"p1", fun _ => true⟩, ⟨"p2", fun _ => true⟩], []⟩

/-- A record carrying only a user agent, matched by both patterns of
`cex_matcher`. -/
def cex_record : LogRecord := ⟨none, none, some "curl", none⟩

/-- A matcher with one CIDR, one country and one exact-UA rule. -/
def w9_matcher : IOCMatcher :=
  ⟨[⟨3232235776, 24, "192.168.1.0/24"⟩], [], ["KP"], ["BadBot"], [], [], []⟩

/-- A record whose `client_ip` does not parse as an IP address but whose
country and user agent both match rules of `w9_matcher`. -/
def w9_record : LogRecord := ⟨some "not-an-ip", some "KP", some "BadBot", none⟩

/-! ## Theorems -/

/-- C10: for every input series and baseline mean, `zscore` called with
`baseline_std = 0` returns an all-zero series of the same shape — values
arbitrarily far from the mean get score 0, there is no clamping to an
epsilon, and no division is performed at all on that path. -/
theorem C10_zscore_zero_std (series : List ℝ) (baseline_mean : ℝ) :
    zscore series baseline_mean 0 = series.map (fun _ => 0) := by
  simp [zscore]

/-- C4: the EWMA update of `detect_anomalies` (lines 200–201 of `ewma.py`)
satisfies `mean' = (1-alpha)*mean + alpha*v` and
`std' = sqrt((1-alpha)*std² + alpha*(v - mean')²)`, the squared deviation
using the already-updated mean `mean'`. -/
theorem C4_ewma_update_formulas (alpha m s v : ℝ) :
    updated_mean alpha m v = (1 - alpha) * m + alpha * v ∧
    updated_std alpha m s v =
      Real.sqrt ((1 - alpha) * s ^ 2 +
        alpha * (v - ((1 - alpha) * m + alpha * v)) ^ 2) :=
  ⟨rfl, rfl⟩

/-- C7: whenever the computed updated std is below `1e-6` it is clamped to
`1e-6` before the z-score; the clamped std is always at least `1e-6`, hence
nonzero, so the division `score = (v - mean') / std` is by a nonzero
denominator (witnessed by multiplying back). -/
theorem C7_std_clamp (alpha m s v : ℝ) :
    (updated_std alpha m s v < 1e-6 →
      clamped_std (updated_std alpha m s v) = 1e-6) ∧
    1e-6 ≤ clamped_std (updated_std alpha m s v) ∧
    clamped_std (updated_std alpha m s v) ≠ 0 ∧
    (v - updated_mean alpha m v) / clamped_std (updated_std alpha m s v) *
      clamped_std (updated_std alpha m s v) = v - updated_mean alpha m v := by
  have hle : (1e-6 : ℝ) ≤ clamped_std (updated_std alpha m s v) := by
    unfold clamped_std
    split
    · exact le_refl _
    · next h => exact le_of_not_lt h
  have hne : clamped_std (updated_std alpha m s v) ≠ 0 := by
    have : (0 : ℝ) < clamped_std (updated_std alpha m s v) := by
      calc (0 : ℝ) < 1e-6 := by norm_num
        _ ≤ _ := hle
    exact ne_of_gt this
  refine ⟨fun h => ?_, hle, hne, ?_⟩
  · unfold clamped_std
    exact if_pos h
  · exact div_mul_cancel₀ _ hne

/-- Witness for C7 at `alpha = 1/2, mean = 0, std = 0, v = 0`: the computed
std is 0, below the epsilon, and is clamped to `1e-6`. -/
theorem C7_std_clamp_witness :
    updated_std (1/2) 0 0 0 < 1e-6 ∧
    clamped_std (updated_std (1/2) 0 0 0) = 1e-6 := by
  have h : updated_std (1/2) 0 0 0 < 1e-6 := by
    unfold updated_std updated_mean
    norm_num
  exact ⟨h, (C7_std_clamp (1/2) 0 0 0).1 h⟩

/-- C2, counterexample: the key the detector actually uses,
`get_baseline_key "m" "k" "s" = "baselines/m/k/s.json"`, cannot be of the
claimed form `baselines/<metric>/<sha1(key)>/<sha1(subkey)>.json`, whose two
hash segments are fixed-length 40-character hex digests — the string is far
too short. -/
theorem C2_cex : ¬ sha1_layout "m" (get_baseline_key "m" "k" "s") := by
  intro h
  obtain ⟨h1, h2, e1, e2, he⟩ := h
  have hk : get_baseline_key "m" "k" "s" = "baselines/m/k/s.json" := by decide
  rw [hk] at he
  have hl := congrArg String.length he
  rw [show ("baselines/m/k/s.json" : String).length = 20 by decide] at hl
  simp only [String.length_append, e1, e2] at hl
  rw [show ("baselines/" : String).length = 10 by decide,
    show ("m" : String).length = 1 by decide,
    show ("/" : String).length = 1 by decide,
    show (".json" : String).length = 5 by decide] at hl
  omega

/-- C2, amended: the storage key the detector loads and saves under is built
by interpolating the metric, key and subkey verbatim —
`baselines/<metric>/<key>/<subkey>.json`, with no content hashing — and
`load_or_train_baseline` consults the store at exactly that key (the SHA-1
layout exists only in the unused helper `storage._generate_s3_key`). -/
theorem C2_raw_key_layout (metric key subkey : String) :
    get_baseline_key metric key subkey =
      "baselines/" ++ metric ++ "/" ++ key ++ "/" ++ subkey ++ ".json" ∧
    ∀ (store : Store) (bucket : String) (hist : List ℝ) (alpha : ℝ) (td : ℕ)
      (r : BaselineRecord),
      store bucket (get_baseline_key metric key subkey) = .blob (.record r) →
      result_pair (load_or_train_baseline store bucket metric key subkey hist alpha td)
        = some (r.mean, r.std) := by
  refine ⟨rfl, fun store bucket hist alpha td r h => ?_⟩
  simp [load_or_train_baseline, get_baseline, get_baseline_outcome, h,
    LoadOutcome.toResult, result_pair]

/-- Witness for C2 (amended) at a store holding `{mean: 3, std: 4}` under
the raw-layout key. -/
theorem C2_raw_key_layout_witness :
    result_pair (load_or_train_baseline
      (fun _ _ => .blob (.record ⟨3, 4⟩)) "bkt" "m" "k" "s" [] (1/2) 7) =
      some (3, 4) :=
  (C2_raw_key_layout "m" "k" "s").2 (fun _ _ => .blob (.record ⟨3, 4⟩)) "bkt" [] (1/2) 7
    ⟨3, 4⟩ rfl

/-- C8, counterexample: stored bytes that cannot be decoded because they are
not valid UTF-8 do NOT return absent to the caller: `.decode('utf-8')`
raises `UnicodeDecodeError`, which is neither a `ClientError` nor a
`json.JSONDecodeError`, so no except clause of `get_baseline` catches it —
the load propagates an exception instead of returning `None`. -/
theorem C8_cex :
    get_baseline (fun _ _ => .blob .invalidUtf8) "bkt" "k" = .error () ∧
    ¬ get_baseline (fun _ _ => .blob .invalidUtf8) "bkt" "k" = .ok none := by
  constructor
  · rfl
  · simp [get_baseline, get_baseline_outcome, LoadOutcome.toResult]

/-- C8, amended: a NoSuchKey response makes the load return absent
(`ok none`, not an error); stored bytes that decode as UTF-8 but fail to
parse as JSON also return absent to the caller, through the distinct
`corruptData` branch (distinguishable from `notFound` in logs); stored bytes
that are not valid UTF-8 instead raise an uncaught `UnicodeDecodeError`
that propagates; any other client error propagates as an exception, with no
retry path in the function. -/
theorem C8_load_error_handling (store : Store) (bucket key : String) :
    (store bucket key = .noSuchKey →
      get_baseline store bucket key = .ok none ∧
      get_baseline_outcome store bucket key = .notFound) ∧
    (store bucket key = .blob .invalidJson →
      get_baseline store bucket key = .ok none ∧
      get_baseline_outcome store bucket key = .corruptData) ∧
    (store bucket key = .blob .invalidUtf8 →
      get_baseline store bucket key = .error () ∧
      get_baseline_outcome store bucket key = .decodeError) ∧
    (store bucket key = .otherClientError →
      get_baseline store bucket key = .error ()) ∧
    LoadOutcome.corruptData ≠ LoadOutcome.notFound := by
  refine ⟨fun h => ?_, fun h => ?_, fun h => ?_, fun h => ?_, fun h => ?_⟩
  · constructor <;> simp [get_baseline, get_baseline_outcome, h, LoadOutcome.toResult]
  · constructor <;> simp [get_baseline, get_baseline_outcome, h, LoadOutcome.toResult]
  · constructor <;> simp [get_baseline, get_baseline_outcome, h, LoadOutcome.toResult]
  · simp [get_baseline, get_baseline_outcome, h, LoadOutcome.toResult]
  · cases h

/-- Witness for C8 (amended): the four store responses exercised at a
concrete bucket and key. -/
theorem C8_load_error_handling_witness :
    get_baseline (fun _ _ => .noSuchKey) "bkt" "k" = .ok none ∧
    get_baseline (fun _ _ => .blob .invalidJson) "bkt" "k" = .ok none ∧
    get_baseline_outcome (fun _ _ => .blob .invalidJson) "bkt" "k" = .corruptData ∧
    get_baseline (fun _ _ => .blob .invalidUtf8) "bkt" "k" = .error () ∧
    get_baseline (fun _ _ => .otherClientError) "bkt" "k" = .error () :=
  ⟨((C8_load_error_handling (fun _ _ => .noSuchKey) "bkt" "k").1 rfl).1,
   ((C8_load_error_handling (fun _ _ => .blob .invalidJson) "bkt" "k").2.1 rfl).1,
   ((C8_load_error_handling (fun _ _ => .blob .invalidJson) "bkt" "k").2.1 rfl).2,
   ((C8_load_error_handling (fun _ _ => .blob .invalidUtf8) "bkt" "k").2.2.1 rfl).1,
   (C8_load_error_handling (fun _ _ => .otherClientError) "bkt" "k").2.2.2.1 rfl⟩

/-- The regex loops of `ioc.py` return the descriptor of the first matching
pattern: they are the `List.find?` of the pattern list under the `search`
predicate. -/
theorem regex_loop_eq_find (tag s : String) (ps : List CompiledRegex) :
    regex_loop tag s ps =
      (ps.find? (fun p => p.search s)).map (fun p => tag ++ p.pattern) := by
  induction ps with
  | nil => rfl
  | cons p ps ih =>
      by_cases h : p.search s
      · simp [regex_loop, List.find?, h]
      · simp only [regex_loop, List.find?]
        rw [if_neg h, Bool.of_not_eq_true h]
        simpa using ih

/-- C9: when the record's `client_ip` is an unparseable IP string, matching
never raises: the CIDR category silently contributes nothing, and the rules
list is exactly the one obtained with no client IP at all (all other
categories still evaluated). -/
theorem C9_invalid_ip_no_error (m : IOCMatcher) (r : LogRecord) (s : String)
    (hip : r.client_ip = some s) (hparse : ip_address? s = none) :
    m.match_ip_cidr r.client_ip = none ∧
    (m.match_record r).rules = (m.match_record ⟨none, r.country, r.user_agent, r.uri⟩).rules := by
  have h1 : m.match_ip_cidr r.client_ip = none := by
    rw [hip]
    by_cases hs : s = ""
    · simp [IOCMatcher.match_ip_cidr, falsy_str, hs]
    · simp [IOCMatcher.match_ip_cidr, falsy_str, hs, hparse]
  have h2 : m.match_ip_cidr none = none := by
    simp [IOCMatcher.match_ip_cidr, falsy_str]
  refine ⟨h1, ?_⟩
  simp only [IOCMatcher.match_record, h1, h2]

/-- Witness for C9: `"not-an-ip"` fails to parse; with a CIDR rule
configured, the CIDR category contributes nothing while the country and
exact-UA categories still match. -/
theorem C9_invalid_ip_no_error_witness :
    ip_address? "not-an-ip" = none ∧
    w9_matcher.match_ip_cidr (some "not-an-ip") = none ∧
    (w9_matcher.match_record w9_record).rules = ["Country:KP", "UA_Exact:BadBot"] := by
  have hparse : ip_address? "not-an-ip" = none := by decide
  have h := C9_invalid_ip_no_error w9_matcher w9_record "not-an-ip" rfl hparse
  exact ⟨hparse, h.1, by decide⟩

/-- C3, counterexample: with two user-agent patterns that both match the
record's user agent, the returned rules list carries only the first
pattern's descriptor, not one descriptor per matching pattern as claimed. -/
theorem C3_cex : ¬ claim_C3 cex_matcher cex_record := by
  unfold claim_C3
  decide

/-- C3, amended: each category contributes at most one descriptor, in the
fixed order CIDR, country, exact-UA, regex-UA, exact-URI, regex-URI; for the
regex categories only the FIRST matching pattern (in configuration order)
contributes its descriptor containing the pattern text — the loop returns on
the first case-insensitive `search` success. -/
theorem C3_first_regex_match (m : IOCMatcher) (r : LogRecord) :
    (m.match_record r).rules =
      opt_list (m.match_ip_cidr r.client_ip) ++
      opt_list (m.match_country r.country) ++
      opt_list (m.match_ua_exact r.user_agent) ++
      opt_list (m.match_ua_regex r.user_agent) ++
      opt_list (m.match_uri_exact r.uri) ++
      opt_list (m.match_uri_regex r.uri) ∧
    (∀ ua, r.user_agent = some ua → ua ≠ "" →
      m.match_ua_regex r.user_agent =
        (m.regex_ua.find? (fun p => p.search ua)).map
          (fun p => "UA_Regex:" ++ p.pattern)) ∧
    (∀ u, r.uri = some u → u ≠ "" →
      m.match_uri_regex r.uri =
        (m.regex_uri.find? (fun p => p.search u)).map
          (fun p => "URI_Regex:" ++ p.pattern)) := by
  have happ : ∀ (acc : List String) (x : Option String),
      append_if acc x = acc ++ opt_list x := by
    intro acc x; cases x <;> simp [append_if, opt_list]
  refine ⟨?_, fun ua hua hne => ?_, fun u hu hne => ?_⟩
  · simp only [IOCMatcher.match_record, happ, List.nil_append, List.append_assoc]
  · rw [hua]
    simp [IOCMatcher.match_ua_regex, falsy_str, hne, regex_loop_eq_find]
  · rw [hu]
    simp [IOCMatcher.match_uri_regex, falsy_str, hne, regex_loop_eq_find]

/-- Witness for C3 (amended) on `cex_matcher`: with user agent `"curl"`, the
regex-UA category reports the first matching pattern, `p1`. -/
theorem C3_first_regex_match_witness :
    cex_matcher.match_ua_regex cex_record.user_agent =
      (cex_matcher.regex_ua.find? (fun p => p.search "curl")).map
        (fun p => "UA_Regex:" ++ p.pattern) ∧
    cex_matcher.match_ua_regex cex_record.user_agent = some "UA_Regex:p1" := by
  have h := (C3_first_regex_match cex_matcher cex_record).2.1 "curl" rfl (by decide)
  exact ⟨h, by decide⟩

/-- C6, counterexample: on the two-point history `[0, 1]` with `alpha = 1/2`
and no stored baseline, the trained std is the bias-corrected exponentially
weighted one, `sqrt(1/2)`, whereas applying the spec's recurrences
sequentially from `mean = history[0], std = 0` yields `sqrt(1/8)` — the
claimed bootstrap does not match the code's. -/
theorem C6_cex :
    result_pair (load_or_train_baseline s1_store "bkt" "m" "k" "s"
      [0, 1] (1/2) 7) = some (1/2, Real.sqrt (1/2)) ∧
    bootstrap_spec (1/2) [0, 1] = (1/2, Real.sqrt (1/8)) ∧
    Real.sqrt (1/8) ≠ Real.sqrt (1/2) := by
  refine ⟨?_, ?_, ?_⟩
  · simp only [load_or_train_baseline, get_baseline, get_baseline_outcome, s1_store,
      LoadOutcome.toResult, result_pair, ewma_last, ewma_std_last, ewm_var_last,
      ewm_step, List.foldl, List.length]
    norm_num
  · simp only [bootstrap_spec, bootstrap_spec_step, List.foldl]
    norm_num
  · have h := Real.sqrt_lt_sqrt (by norm_num : (0:ℝ) ≤ 1/8) (by norm_num : (1/8:ℝ) < 1/2)
    exact ne_of_lt h

/-- C6, amended: with no stored baseline, a history of at least 2 values
trains `mean` as the final value of the exponential mean recurrence from
`history[0]` (as claimed), but `std` as the square root of the
bias-corrected exponentially weighted variance of the full history (pandas
`ewm(adjust=False).var()` with its default debiasing), not as the plain
variance recurrence; with fewer than 2 points it returns
`mean = last value (or 0 for an empty history)` and `std = 0`, as
claimed. -/
theorem C6_bootstrap (store : Store) (bucket metric key subkey : String)
    (hist : List ℝ) (alpha : ℝ) (td : ℕ)
    (habs : store bucket (get_baseline_key metric key subkey) = .noSuchKey) :
    (hist.length < 2 →
      result_pair (load_or_train_baseline store bucket metric key subkey hist alpha td)
        = some ((hist.getLast?).getD 0, 0)) ∧
    (2 ≤ hist.length →
      result_pair (load_or_train_baseline store bucket metric key subkey hist alpha td)
        = some (ewma_last alpha hist, Real.sqrt (ewm_var_last alpha hist))) := by
  constructor
  · intro h
    simp [load_or_train_baseline, get_baseline, get_baseline_outcome, habs,
      LoadOutcome.toResult, result_pair, h]
  · intro h
    simp [load_or_train_baseline, get_baseline, get_baseline_outcome, habs,
      LoadOutcome.toResult, result_pair, Nat.not_lt.mpr h, ewma_std_last]

/-- Witness for C6 (amended): a single-point history gives
`(mean, std) = (3, 0)`; the two-point history `[0, 1]` gives the trained
pair. -/
theorem C6_bootstrap_witness :
    result_pair (load_or_train_baseline s1_store "bkt" "m" "k" "s"
      [(3 : ℝ)] (1/2) 7) = some (3, 0) ∧
    result_pair (load_or_train_baseline s1_store "bkt" "m" "k" "s"
      [0, 1] (1/2) 7) =
      some (ewma_last (1/2) [0, 1], Real.sqrt (ewm_var_last (1/2) [0, 1])) := by
  constructor
  · have h := (C6_bootstrap s1_store "bkt" "m" "k" "s" [(3 : ℝ)] (1/2) 7 rfl).1
      (by norm_num)
    simpa using h
  · exact (C6_bootstrap s1_store "bkt" "m" "k" "s" [0, 1] (1/2) 7 rfl).2 (by norm_num)

/-- `insert_desc` inserts, as a permutation. -/
theorem insert_desc_perm (a : Anomaly) (l : List Anomaly) :
    List.Perm (insert_desc a l) (a :: l) := by
  induction l with
  | nil => exact List.Perm.refl _
  | cons b bs ih =>
      unfold insert_desc
      split
      · exact List.Perm.refl _
      · exact ((ih.cons b).trans (List.Perm.swap a b bs))

/-- The final sort of `detect_anomalies` is a permutation of the collected
anomalies. -/
theorem sort_desc_perm (l : List Anomaly) : List.Perm (sort_desc l) l := by
  induction l with
  | nil => exact List.Perm.refl _
  | cons a as ih => exact (insert_desc_perm a (sort_desc as)).trans (ih.cons a)

/-- `insert_desc` preserves sortedness by descending `abs(score)`. -/
theorem insert_desc_sorted (a : Anomaly) (l : List Anomaly)
    (h : l.Pairwise (fun x y => |y.score| ≤ |x.score|)) :
    (insert_desc a l).Pairwise (fun x y => |y.score| ≤ |x.score|) := by
  induction l with
  | nil => simp [insert_desc]
  | cons b bs ih =>
      rw [List.pairwise_cons] at h
      unfold insert_desc
      split
      next hba =>
        refine List.pairwise_cons.2 ⟨?_, List.pairwise_cons.2 h⟩
        intro x hx
        rcases List.mem_cons.1 hx with hx | hx
        · subst hx
          exact hba
        · exact le_trans (h.1 x hx) hba
      next hba =>
        refine List.pairwise_cons.2 ⟨?_, ih h.2⟩
        intro x hx
        have hx2 : x ∈ a :: bs := (insert_desc_perm a bs).mem_iff.1 hx
        rcases List.mem_cons.1 hx2 with hx3 | hx3
        · subst hx3
          exact le_of_not_le hba
        · exact h.1 x hx3

/-- The final sort of `detect_anomalies` is sorted by descending
`abs(score)`. -/
theorem sort_desc_sorted (l : List Anomaly) :
    (sort_desc l).Pairwise (fun x y => |y.score| ≤ |x.score|) := by
  induction l with
  | nil => simp [sort_desc]
  | cons a as ih => exact insert_desc_sorted a (sort_desc as) ih

/-- The `mode` field written by `detect_anomalies`,
`"high" if score > 0 else "low"`, read back as an iff. -/
theorem mode_field_iff (sc : ℝ) :
    ((if 0 < sc then "high" else "low") = "high" ↔ 0 < sc) ∧
    ((if 0 < sc then "high" else "low") = "low" ↔ ¬ 0 < sc) := by
  by_cases h : 0 < sc <;> simp [h]

/-- A group step that emits an anomaly emits one whose score exceeds the
sigma threshold in absolute value, with `mode = "high"` exactly when the
score is positive and `"low"` otherwise. -/
theorem process_group_some_score {alpha sigma : ℝ} {bucket : String} {td : ℕ}
    {st : Store} {gk : String × String × String} {g : List DataPoint} {st2 : Store}
    {a : Anomaly}
    (h : process_group alpha sigma bucket td st gk g = .ok (st2, some a)) :
    sigma < |a.score| ∧ (a.mode = "high" ↔ 0 < a.score) ∧
      (a.mode = "low" ↔ ¬ 0 < a.score) := by
  simp only [process_group] at h
  split at h
  · simp only [Except.ok.injEq, Prod.mk.injEq] at h
    exact absurd h.2 (by simp)
  · split at h
    · exact absurd h (by simp)
    · split at h
      · next hscore =>
          simp only [Except.ok.injEq, Prod.mk.injEq, Option.some.injEq] at h
          obtain ⟨-, ha⟩ := h
          subst ha
          exact ⟨hscore, (mode_field_iff _).1, (mode_field_iff _).2⟩
      · simp only [Except.ok.injEq, Prod.mk.injEq] at h
        exact absurd h.2 (by simp)

/-- Every anomaly in the output of the grouped loop either was already in the
accumulator or was emitted by `process_group` for some group. -/
theorem process_groups_mem {alpha sigma : ℝ} {bucket : String} {td : ℕ}
    {dps : List DataPoint} :
    ∀ {gks : List (String × String × String)} {st : Store} {acc : List Anomaly}
      {st2 : Store} {out : List Anomaly},
      process_groups alpha sigma bucket td dps gks st acc = .ok (st2, out) →
      ∀ a ∈ out, a ∈ acc ∨
        ∃ st0 gk st1, process_group alpha sigma bucket td st0 gk (group_of dps gk)
          = .ok (st1, some a) := by
  intro gks
  induction gks with
  | nil =>
      intro st acc st2 out h a ha
      simp only [process_groups, Except.ok.injEq, Prod.mk.injEq] at h
      rw [← h.2] at ha
      exact Or.inl ha
  | cons gk gks ih =>
      intro st acc st2 out h a ha
      rcases hpg : process_group alpha sigma bucket td st gk (group_of dps gk) with
        e | p
      · rw [process_groups, hpg] at h
        exact absurd h (by simp)
      · obtain ⟨st1, a?⟩ := p
        rw [process_groups, hpg] at h
        rcases ih h a ha with hacc | hex
        · cases a? with
          | some b =>
              rcases List.mem_append.1 hacc with hl | hr
              · exact Or.inl hl
              · have hab : a = b := by simpa using hr
                subst hab
                exact Or.inr ⟨st, gk, st1, hpg⟩
          | none => exact Or.inl hacc
        · exact Or.inr hex

/-- Unfolding `detect_anomalies` on any batch: the result is the stable sort
of the collected anomalies, truncated to `topk`. -/
theorem detect_eq_sort_take {dps : List DataPoint} {store : Store} {bucket : String}
    {alpha sigma : ℝ} {mc k td : ℕ} {l anoms : List Anomaly}
    (hdet : detect_anomalies dps store bucket alpha sigma mc k td = .ok l)
    (hcol : collected_anomalies dps store bucket alpha sigma td = .ok anoms) :
    l = (sort_desc anoms).take k := by
  by_cases hemp : dps.isEmpty
  · have hdps : dps = [] := by
      cases dps with
      | nil => rfl
      | cons x xs => simp at hemp
    subst hdps
    simp only [detect_anomalies, List.isEmpty_nil, if_true, Except.ok.injEq] at hdet
    simp only [collected_anomalies, group_keys, List.foldl_nil, process_groups,
      Except.ok.injEq, Prod.mk.injEq] at hcol
    subst hdet
    rw [← hcol]
    simp [sort_desc]
  · simp only [detect_anomalies, hemp, Bool.false_eq_true, if_false] at hdet
    simp only [collected_anomalies] at hcol
    rcases hpg : process_groups alpha sigma bucket td dps (group_keys dps) store []
      with e | p
    · rw [hpg] at hdet
      exact absurd hdet (by simp)
    · obtain ⟨st1, as⟩ := p
      rw [hpg] at hdet hcol
      simp only [Except.ok.injEq] at hdet hcol
      subst hcol
      exact hdet.symm

/-- C1, amended: `detect_anomalies` returns the collected anomalies sorted by
`abs(score)` descending — ties keeping the order in which the groups were
first encountered in the batch (Python's sort is stable; there is no
lexicographic tie-break) — truncated to `topk`: the output length is
`min topk N`, the output is sorted by descending `abs(score)`, and when the
`N` collected anomalies have pairwise distinct `abs(score)` with `N > topk`
the output has exactly `topk` entries in strictly descending `abs(score)`
order. -/
theorem C1_topk (dps : List DataPoint) (store : Store) (bucket : String)
    (alpha sigma : ℝ) (mc k td : ℕ) (l anoms : List Anomaly)
    (hdet : detect_anomalies dps store bucket alpha sigma mc k td = .ok l)
    (hcol : collected_anomalies dps store bucket alpha sigma td = .ok anoms) :
    l = (sort_desc anoms).take k ∧
    l.Pairwise (fun a b => |b.score| ≤ |a.score|) ∧
    l.length = min k anoms.length ∧
    (anoms.Pairwise (fun a b => |a.score| ≠ |b.score|) →
      (k < anoms.length → l.length = k) ∧
      l.Pairwise (fun a b => |b.score| < |a.score|)) := by
  have htake := detect_eq_sort_take hdet hcol
  have hperm := sort_desc_perm anoms
  have hsorted := sort_desc_sorted anoms
  have hlen : l.length = min k anoms.length := by
    rw [htake, List.length_take, hperm.length_eq]
  refine ⟨htake, ?_, hlen, ?_⟩
  · rw [htake]
    exact hsorted.sublist (List.take_sublist k _)
  · intro hne
    have hne2 : (sort_desc anoms).Pairwise (fun a b => |a.score| ≠ |b.score|) :=
      (hperm.pairwise_iff (fun {x y} h => Ne.symm h)).2 hne
    have hstrict : (sort_desc anoms).Pairwise (fun a b => |b.score| < |a.score|) :=
      (hsorted.and hne2).imp (fun h => lt_of_le_of_ne h.1 (Ne.symm h.2))
    refine ⟨fun hk => ?_, ?_⟩
    · rw [hlen]
      omega
    · rw [htake]
      exact hstrict.sublist (List.take_sublist k _)

/-- C5: every anomaly returned by `detect_anomalies` has `abs(score)`
strictly above sigma, and its mode is `"high"` iff its score is positive
(`"low"` otherwise); conversely, a group step only ever contributes an
anomaly whose score exceeds the threshold — equivalently, a group whose
computed score satisfies `abs(score) ≤ sigma` contributes none. -/
theorem C5_threshold_and_mode (dps : List DataPoint) (store : Store) (bucket : String)
    (alpha sigma : ℝ) (mc k td : ℕ) (l : List Anomaly)
    (hdet : detect_anomalies dps store bucket alpha sigma mc k td = .ok l) :
    (∀ a ∈ l, sigma < |a.score| ∧ (a.mode = "high" ↔ 0 < a.score) ∧
      (a.mode = "low" ↔ ¬ 0 < a.score)) ∧
    (∀ (st : Store) (gk : String × String × String) (g : List DataPoint)
      (st2 : Store) (a : Anomaly),
      process_group alpha sigma bucket td st gk g = .ok (st2, some a) →
      ¬ (|a.score| ≤ sigma)) := by
  constructor
  · intro a ha
    by_cases hemp : dps.isEmpty
    · have hdps : dps = [] := by
        cases dps with
        | nil => rfl
        | cons x xs => simp at hemp
      subst hdps
      simp only [detect_anomalies, List.isEmpty_nil, if_true, Except.ok.injEq] at hdet
      subst hdet
      exact absurd ha (by simp)
    · simp only [detect_anomalies, hemp, Bool.false_eq_true, if_false] at hdet
      rcases hpg : process_groups alpha sigma bucket td dps (group_keys dps) store []
        with e | p
      · rw [hpg] at hdet
        exact absurd hdet (by simp)
      · obtain ⟨st1, anoms⟩ := p
        rw [hpg] at hdet
        simp only [Except.ok.injEq] at hdet
        subst hdet
        have ha1 : a ∈ sort_desc anoms := (List.take_sublist k _).subset ha
        have ha2 : a ∈ anoms := (sort_desc_perm anoms).mem_iff.1 ha1
        rcases process_groups_mem hpg a ha2 with habs | ⟨st0, gk, st3, hpga⟩
        · exact absurd habs (by simp)
        · exact process_group_some_score hpga
  · intro st gk g st2 a hpg
    exact not_le.2 (process_group_some_score hpg).1

/-! ### Scenario 1 evaluation: two cold-start groups with tied scores -/

/-- Scenario 1, group `("m","b","s")`: cold start from the single value 5
trains `(5, 0)`, the update leaves the mean at 5 with std 0 clamped to
`1e-6`, score 0; with `sigma = -1` an anomaly is raised. -/
theorem s1_pg_B : process_group (1/2) (-1) "bkt" 7 s1_store ("m", "b", "s") [s1_dpB] =
    .ok (put_baseline (put_baseline s1_store "bkt" (get_baseline_key "m" "b" "s") ⟨5, 0⟩)
          "bkt" (get_baseline_key "m" "b" "s") ⟨5, 1e-6⟩, some s1_anomB) := by
  simp only [process_group, sort_by_minute, insert_by_minute, List.map, s1_dpB,
    List.isEmpty_cons, Bool.false_eq_true, if_false,
    load_or_train_baseline, get_baseline, get_baseline_outcome, s1_store,
    LoadOutcome.toResult]
  norm_num [updated_mean, updated_std, clamped_std, s1_anomB]

/-- Scenario 1, group `("m","a","s")`, processed after group B's baseline
writes: same cold-start computation, score 0, anomaly raised. -/
theorem s1_pg_A : process_group (1/2) (-1) "bkt" 7
      (put_baseline (put_baseline s1_store "bkt" (get_baseline_key "m" "b" "s") ⟨5, 0⟩)
          "bkt" (get_baseline_key "m" "b" "s") ⟨5, 1e-6⟩)
      ("m", "a", "s") [s1_dpA] =
    .ok (put_baseline (put_baseline (put_baseline (put_baseline s1_store
            "bkt" (get_baseline_key "m" "b" "s") ⟨5, 0⟩)
          "bkt" (get_baseline_key "m" "b" "s") ⟨5, 1e-6⟩)
          "bkt" (get_baseline_key "m" "a" "s") ⟨5, 0⟩)
          "bkt" (get_baseline_key "m" "a" "s") ⟨5, 1e-6⟩, some s1_anomA) := by
  have hne : ((get_baseline_key "m" "a" "s" : String) = get_baseline_key "m" "b" "s") = False := by
    decide
  simp only [process_group, sort_by_minute, insert_by_minute, List.map, s1_dpA,
    List.isEmpty_cons, Bool.false_eq_true, if_false,
    load_or_train_baseline, get_baseline, get_baseline_outcome, put_baseline, s1_store,
    hne, and_false, if_false,
    LoadOutcome.toResult]
  norm_num [updated_mean, updated_std, clamped_std, s1_anomA]

/-- Scenario 1, both groups, in first-encounter order B then A. -/
theorem s1_pgs : process_groups (1/2) (-1) "bkt" 7 [s1_dpB, s1_dpA]
      [("m", "b", "s"), ("m", "a", "s")] s1_store [] =
    .ok (put_baseline (put_baseline (put_baseline (put_baseline s1_store
            "bkt" (get_baseline_key "m" "b" "s") ⟨5, 0⟩)
          "bkt" (get_baseline_key "m" "b" "s") ⟨5, 1e-6⟩)
          "bkt" (get_baseline_key "m" "a" "s") ⟨5, 0⟩)
          "bkt" (get_baseline_key "m" "a" "s") ⟨5, 1e-6⟩, [s1_anomB, s1_anomA]) := by
  have hgB : group_of [s1_dpB, s1_dpA] ("m", "b", "s") = [s1_dpB] := by
    simp [group_of, s1_dpB, s1_dpA, DataPoint.group_key, DataPoint.subkey]
  have hgA : group_of [s1_dpB, s1_dpA] ("m", "a", "s") = [s1_dpA] := by
    simp [group_of, s1_dpB, s1_dpA, DataPoint.group_key, DataPoint.subkey]
  simp only [process_groups, hgB, hgA, s1_pg_B, s1_pg_A, List.nil_append,
    List.singleton_append]

/-- Scenario 1 final sort: the stable sort leaves the tied anomalies in
encounter order B, A. -/
theorem s1_sort : (sort_desc [s1_anomB, s1_anomA]).take 5 = [s1_anomB, s1_anomA] := by
  simp only [sort_desc, insert_desc, s1_anomB, s1_anomA]
  norm_num [List.take]

/-- Scenario 1 end-to-end: the detector returns B's anomaly before A's. -/
theorem s1_detect : detect_anomalies [s1_dpB, s1_dpA] s1_store "bkt" (1/2) (-1) 0 5 7 =
    .ok [s1_anomB, s1_anomA] := by
  have hgk : group_keys [s1_dpB, s1_dpA] = [("m", "b", "s"), ("m", "a", "s")] := by decide
  simp only [detect_anomalies, List.isEmpty_cons, Bool.false_eq_true, if_false]
  rw [hgk, s1_pgs]
  exact congrArg Except.ok s1_sort

/-- Scenario 1: the collected anomalies before sort/truncation. -/
theorem s1_col : collected_anomalies [s1_dpB, s1_dpA] s1_store "bkt" (1/2) (-1) 7 =
    .ok [s1_anomB, s1_anomA] := by
  have hgk : group_keys [s1_dpB, s1_dpA] = [("m", "b", "s"), ("m", "a", "s")] := by decide
  simp only [collected_anomalies]
  rw [hgk, s1_pgs]

/-- Scenario 1 under the spec's claimed ordering: the lexicographic
tie-break would put A's anomaly first. -/
theorem s1_spec_sort : spec_sort [s1_anomB, s1_anomA] = [s1_anomA, s1_anomB] := by
  have hnsb : ¬ spec_before s1_anomB s1_anomA := by
    simp only [spec_before, s1_anomB, s1_anomA, Anomaly.group_key]
    intro h
    rcases h with h | ⟨-, h⟩
    · simp at h
    · rcases h with h | h
      · revert h
        unfold lex_lt
        decide
      · revert h
        decide
  simp only [spec_sort, spec_insert]
  rw [if_neg hnsb]

/-- C1, counterexample: on a batch with two groups whose anomalies tie on
`abs(score)`, the detector returns them in group-encounter order
(`("m","b","s")` first), not in the claimed lexicographic `(metric, key,
subkey)` order (`("m","a","s")` first) — Python's stable sort has no
lexicographic tie-break. -/
theorem C1_cex : ¬ claim_C1 [s1_dpB, s1_dpA] s1_store "bkt" (1/2) (-1) 0 5 7 := by
  intro h
  obtain ⟨anoms, hcol, heq⟩ := h [s1_anomB, s1_anomA] s1_detect
  rw [s1_col] at hcol
  have hanoms := Except.ok.inj hcol
  rw [← hanoms, s1_spec_sort] at heq
  simp only [List.take, s1_anomA, s1_anomB] at heq
  injection heq with h1 h2
  injection h1 with hk
  exact absurd hk (by decide)

/-! ### Scenario 2 evaluation: two groups with distinct anomaly scores -/

/-- `sqrt 25 = 5`, the updated std of scenario 2's first group. -/
theorem s2_sqrt25 : Real.sqrt 25 = 5 := by
  rw [show (25 : ℝ) = 5 ^ 2 by norm_num]
  exact Real.sqrt_sq (by norm_num)

/-- `sqrt 1 = 1`, the updated std of scenario 2's second group. -/
theorem s2_sqrt1 : Real.sqrt 1 = 1 := Real.sqrt_one

/-- Absolute value of the first group's score. -/
theorem s2_abs75 : |(7 / 5 : ℝ)| = 7 / 5 := abs_of_pos (by norm_num)

/-- Absolute value of the second group's score. -/
theorem s2_abs1 : |(1 : ℝ)| = 1 := abs_of_pos (by norm_num)

/-- Scenario 2, group `("m","k1","s")`: stored baseline `(0, 1)`, value 14,
update `(7, 5)`, score `7/5 > 1/2`: anomaly, mode high. -/
theorem s2_pg_1 : process_group (1/2) (1/2) "bkt" 7 s2_store ("m", "k1", "s") [s2_dp1] =
    .ok (put_baseline s2_store "bkt" (get_baseline_key "m" "k1" "s") ⟨7, 5⟩,
      some s2_anom1) := by
  have hk1 : ((get_baseline_key "m" "k1" "s" : String) = "baselines/m/k1/s.json") = True := by
    decide
  simp only [process_group, sort_by_minute, insert_by_minute, List.map, s2_dp1,
    List.isEmpty_cons, Bool.false_eq_true, if_false,
    load_or_train_baseline, get_baseline, get_baseline_outcome, s2_store, hk1, true_or,
    if_true, LoadOutcome.toResult]
  norm_num [updated_mean, updated_std, clamped_std, s2_anom1, s2_sqrt25, s2_abs75]

/-- Scenario 2, group `("m","k2","s")` after group 1's baseline write:
stored baseline `(0, 1)`, value 2, update `(1, 1)`, score `1 > 1/2`:
anomaly, mode high. -/
theorem s2_pg_2 : process_group (1/2) (1/2) "bkt" 7
      (put_baseline s2_store "bkt" (get_baseline_key "m" "k1" "s") ⟨7, 5⟩)
      ("m", "k2", "s") [s2_dp2] =
    .ok (put_baseline (put_baseline s2_store "bkt" (get_baseline_key "m" "k1" "s") ⟨7, 5⟩)
        "bkt" (get_baseline_key "m" "k2" "s") ⟨1, 1⟩,
      some s2_anom2) := by
  have hne : ((get_baseline_key "m" "k2" "s" : String) = get_baseline_key "m" "k1" "s") = False := by
    decide
  have hk2a : ((get_baseline_key "m" "k2" "s" : String) = "baselines/m/k1/s.json") = False := by
    decide
  have hk2b : ((get_baseline_key "m" "k2" "s" : String) = "baselines/m/k2/s.json") = True := by
    decide
  simp only [process_group, sort_by_minute, insert_by_minute, List.map, s2_dp2,
    List.isEmpty_cons, Bool.false_eq_true, if_false,
    load_or_train_baseline, get_baseline, get_baseline_outcome, put_baseline, s2_store,
    hne, hk2a, hk2b, and_false, false_or, true_or, if_true, if_false,
    LoadOutcome.toResult]
  norm_num [updated_mean, updated_std, clamped_std, s2_anom2, s2_sqrt1, s2_abs1]

/-- Scenario 2, both groups. -/
theorem s2_pgs : process_groups (1/2) (1/2) "bkt" 7 [s2_dp1, s2_dp2]
      [("m", "k1", "s"), ("m", "k2", "s")] s2_store [] =
    .ok (put_baseline (put_baseline s2_store "bkt" (get_baseline_key "m" "k1" "s") ⟨7, 5⟩)
        "bkt" (get_baseline_key "m" "k2" "s") ⟨1, 1⟩, [s2_anom1, s2_anom2]) := by
  have hg1 : group_of [s2_dp1, s2_dp2] ("m", "k1", "s") = [s2_dp1] := by
    simp [group_of, s2_dp1, s2_dp2, DataPoint.group_key, DataPoint.subkey]
  have hg2 : group_of [s2_dp1, s2_dp2] ("m", "k2", "s") = [s2_dp2] := by
    simp [group_of, s2_dp1, s2_dp2, DataPoint.group_key, DataPoint.subkey]
  simp only [process_groups, hg1, hg2, s2_pg_1, s2_pg_2, List.nil_append,
    List.singleton_append]

/-- Scenario 2 final sort with `topk = 1`: only the higher-scored anomaly
survives. -/
theorem s2_sort : (sort_desc [s2_anom1, s2_anom2]).take 1 = [s2_anom1] := by
  simp only [sort_desc, insert_desc, s2_anom1, s2_anom2]
  norm_num [s2_abs75, s2_abs1, List.take]

/-- Scenario 2 end-to-end with `topk = 1`. -/
theorem s2_detect : detect_anomalies [s2_dp1, s2_dp2] s2_store "bkt" (1/2) (1/2) 0 1 7 =
    .ok [s2_anom1] := by
  have hgk : group_keys [s2_dp1, s2_dp2] = [("m", "k1", "s"), ("m", "k2", "s")] := by
    decide
  simp only [detect_anomalies, List.isEmpty_cons, Bool.false_eq_true, if_false]
  rw [hgk, s2_pgs]
  exact congrArg Except.ok s2_sort

/-- Scenario 2: both anomalies collected before truncation. -/
theorem s2_col : collected_anomalies [s2_dp1, s2_dp2] s2_store "bkt" (1/2) (1/2) 7 =
    .ok [s2_anom1, s2_anom2] := by
  have hgk : group_keys [s2_dp1, s2_dp2] = [("m", "k1", "s"), ("m", "k2", "s")] := by
    decide
  simp only [collected_anomalies]
  rw [hgk, s2_pgs]

/-- Scenario 2's second group under `sigma = 2`: its score 1 satisfies
`abs(score) ≤ sigma`, so the group contributes no anomaly (the baseline is
still persisted). -/
theorem s2_pg_2_none : process_group (1/2) 2 "bkt" 7 s2_store ("m", "k2", "s") [s2_dp2] =
    .ok (put_baseline s2_store "bkt" (get_baseline_key "m" "k2" "s") ⟨1, 1⟩, none) := by
  have hk2a : ((get_baseline_key "m" "k2" "s" : String) = "baselines/m/k1/s.json") = False := by
    decide
  have hk2b : ((get_baseline_key "m" "k2" "s" : String) = "baselines/m/k2/s.json") = True := by
    decide
  simp only [process_group, sort_by_minute, insert_by_minute, List.map, s2_dp2,
    List.isEmpty_cons, Bool.false_eq_true, if_false,
    load_or_train_baseline, get_baseline, get_baseline_outcome, s2_store,
    hk2a, hk2b, false_or, true_or, if_true, if_false,
    LoadOutcome.toResult]
  norm_num [updated_mean, updated_std, clamped_std, s2_sqrt1, s2_abs1]

/-- Witness for C1 (amended): two anomalies with distinct `abs(score)` and
`topk = 1` — the result is exactly the truncated stable sort, of length 1,
strictly descending. -/
theorem C1_topk_witness :
    ([s2_anom1] : List Anomaly) = (sort_desc [s2_anom1, s2_anom2]).take 1 ∧
    ([s2_anom1] : List Anomaly).length = 1 ∧
    List.Pairwise (fun a b : Anomaly => |b.score| < |a.score|) [s2_anom1] := by
  have hne : List.Pairwise (fun a b : Anomaly => |a.score| ≠ |b.score|)
      [s2_anom1, s2_anom2] := by
    simp only [List.pairwise_cons, List.mem_cons, List.not_mem_nil, or_false,
      List.mem_singleton, List.Pairwise.nil, and_true]
    constructor
    · intro a ha
      rw [ha]
      simp only [s2_anom1, s2_anom2, s2_abs75, s2_abs1]
      norm_num
    · intro a ha
      exact absurd ha (by simp)
  have h := C1_topk [s2_dp1, s2_dp2] s2_store "bkt" (1/2) (1/2) 0 1 7 [s2_anom1]
    [s2_anom1, s2_anom2] s2_detect s2_col
  exact ⟨h.1, (h.2.2.2 hne).1 (by norm_num), (h.2.2.2 hne).2⟩

/-- Witness for C5: on scenario 2 the returned anomaly has
`abs(score) = 7/5 > sigma = 1/2` with mode `"high"`, and a group whose score
stays within 2 sigma contributes no anomaly. -/
theorem C5_threshold_and_mode_witness :
    detect_anomalies [s2_dp1, s2_dp2] s2_store "bkt" (1/2) (1/2) 0 1 7 =
      .ok [s2_anom1] ∧
    ((1 : ℝ)/2 < |s2_anom1.score| ∧ (s2_anom1.mode = "high" ↔ 0 < s2_anom1.score)) ∧
    ¬ (|s2_anom1.score| ≤ (1 : ℝ)/2) ∧
    process_group (1/2) 2 "bkt" 7 s2_store ("m", "k2", "s") [s2_dp2] =
      .ok (put_baseline s2_store "bkt" (get_baseline_key "m" "k2" "s") ⟨1, 1⟩, none) := by
  have h := C5_threshold_and_mode [s2_dp1, s2_dp2] s2_store "bkt" (1/2) (1/2) 0 1 7
    [s2_anom1] s2_detect
  have h1 := h.1 s2_anom1 (by simp)
  have h2 := h.2 s2_store ("m", "k1", "s") [s2_dp1] _ s2_anom1 s2_pg_1
  exact ⟨s2_detect, ⟨h1.1, h1.2.1⟩, h2, s2_pg_2_none⟩

end FlowWAF